import Mathlib

/-!
Verification development for the ASTEP photometric calibration pipeline.

The definitions below are a shallow embedding of the pipeline code in
src/src/calibration.py and src/src/photocal.py, together with the
behaviour of the ccdproc library functions those modules invoke
(ccdproc.subtract_bias, ccdproc.subtract_dark, ccdproc.flat_correct,
ccdproc.combine).  Pixel arrays are modelled as lists of rows of
rational numbers; FITS headers are modelled by the fields the code
reads (EXPTIME, ACQTYPE, the unit tag).
-/

namespace ASTEP

/-- Errors raised by the calibration routines.  In the Python source
these are ValueError (inconsistent dark exposure times), KeyError
(missing EXPTIME header), and the error classes named by the design
spec (EmptyInputError, UnitMismatchError, MissingArtifactError). -/
inductive CalError where
  | missingKey
  | shapeMismatch
  | inconsistentExposure
  | emptyInput
  | unitMismatch
  | missingArtifact
deriving DecidableEq, Repr

/-- Combination methods accepted by image_combine and used by the
pipeline (method strings "average" and "median" in the source). -/
inductive CombineMethod where
  | average
  | median
deriving DecidableEq, Repr

/-- Model of an astropy CCDData object as used by the pipeline: the
pixel array (rows of rationals), the unit string, the EXPTIME and
ACQTYPE header entries, and the optional boolean defect-mask array. -/
structure CCDImage where
  data : List (List ℚ)
  unit : String
  exptime : Option ℚ
  acqtype : Option String
  mask : Option (List (List Bool))
deriving DecidableEq, Repr

/-- Pointwise application of a binary operation to two pixel arrays,
modelling numpy elementwise arithmetic on same-shape arrays. -/
def zipWith2D (f : ℚ → ℚ → ℚ) (a b : List (List ℚ)) : List (List ℚ) :=
  List.zipWith (List.zipWith f) a b

/-- The shape of a pixel array: the list of row lengths. -/
def shapeOf (m : List (List ℚ)) : List Nat :=
  m.map List.length

/-- Arithmetic mean of a list of rationals (numpy mean; 0 on an empty
list, a case never reached by the pipeline). -/
def listMean (l : List ℚ) : ℚ :=
  l.sum / l.length

/-- Median of a list of rationals, following numpy: sort, take the
middle element, or the mean of the two middle elements. -/
def listMedian (l : List ℚ) : ℚ :=
  let s := l.insertionSort (· ≤ ·)
  if s.length % 2 = 1 then s.getD (s.length / 2) 0
  else (s.getD (s.length / 2 - 1) 0 + s.getD (s.length / 2) 0) / 2

/-- One pass of sigma clipping about the mean, as performed by
ccdproc.Combiner.sigma_clipping with the default central function
(mean) and deviation function (std, ddof 0): a value is kept when its
distance from the mean is at most sigma standard deviations.  The test
is stated in squared form, which is equivalent for nonnegative sigma
and avoids square roots. -/
def sigmaKeep (l : List ℚ) (sigma : ℚ) : List ℚ :=
  let m := listMean l
  let v := listMean (l.map (fun x => (x - m) ^ 2))
  l.filter (fun x => decide ((x - m) ^ 2 ≤ sigma ^ 2 * v))

/-- Combination of the stack values at one pixel: optional sigma
clipping followed by the mean or the median of the surviving values.
This is the per-pixel computation of ccdproc.combine. -/
def combinePixel (vals : List ℚ) (method : CombineMethod) (clip : Bool) (sigma : ℚ) : ℚ :=
  let kept := if clip then sigmaKeep vals sigma else vals
  match method with
  | .average => listMean kept
  | .median => listMedian kept

/-- Fuel-indexed recursion over the columns of one output row: the
stack argument holds, for each input frame, the remaining suffix of
the corresponding row. -/
def rowGo (method : CombineMethod) (clip : Bool) (sigma : ℚ) :
    Nat → List (List ℚ) → List ℚ
  | 0, _ => []
  | n + 1, rows =>
      combinePixel (rows.map (fun r => r.headD 0)) method clip sigma ::
        rowGo method clip sigma n (rows.map List.tail)

/-- Combination of one output row from the matching rows of the input
frames. -/
def combineRow (method : CombineMethod) (clip : Bool) (sigma : ℚ)
    (rows : List (List ℚ)) : List ℚ :=
  rowGo method clip sigma (rows.headD []).length rows

/-- Fuel-indexed recursion over the rows of the output image: the
stack argument holds, for each input frame, its remaining rows. -/
def combineGo (method : CombineMethod) (clip : Bool) (sigma : ℚ) :
    Nat → List (List (List ℚ)) → List (List ℚ)
  | 0, _ => []
  | n + 1, stack =>
      combineRow method clip sigma (stack.map (fun f => f.headD [])) ::
        combineGo method clip sigma n (stack.map List.tail)

/-- Model of ccdproc.combine without chunking: output pixel (i, j) is
the combination of the (i, j) values across the stack of frames. -/
def imageCombineData (method : CombineMethod) (clip : Bool) (sigma : ℚ)
    (stack : List (List (List ℚ))) : List (List ℚ) :=
  combineGo method clip sigma (stack.headD []).length stack

/-- Model of the out-of-core path of ccdproc.combine under a memory
limit: the stack is cut into successive bands of chunk + 1 rows (the
last band possibly shorter), each band is combined on its own, and the
results are concatenated.  The fuel argument is the number of rows
still to produce. -/
def chunkedGo (method : CombineMethod) (clip : Bool) (sigma : ℚ) (chunk : Nat) :
    Nat → List (List (List ℚ)) → List (List ℚ)
  | 0, _ => []
  | fuel + 1, stack =>
      combineGo method clip sigma (min (chunk + 1) (fuel + 1)) (stack.map (List.take (chunk + 1))) ++
        chunkedGo method clip sigma chunk (fuel - chunk) (stack.map (List.drop (chunk + 1)))
termination_by fuel _ => fuel
decreasing_by omega

/-- Chunked combination of a stack of frames: bands of chunk + 1 rows. -/
def imageCombineChunked (method : CombineMethod) (clip : Bool) (sigma : ℚ)
    (chunk : Nat) (stack : List (List (List ℚ))) : List (List ℚ) :=
  chunkedGo method clip sigma chunk (stack.headD []).length stack

/-- Model of image_combine (calibration.py): a thin wrapper around
ccdproc.combine.  An empty input list fails; frames whose units
disagree fail; otherwise the stack is combined, in one pass or in
row bands according to the memory limit, and the result inherits the
metadata of the first frame.  The memChunk argument models the row
chunking that ccdproc.combine derives from its mem_limit argument
(none meaning the whole stack fits in memory). -/
def image_combine (images : List CCDImage) (method : CombineMethod)
    (clip : Bool) (sigma : ℚ) (memChunk : Option Nat) : Except CalError CCDImage :=
  match images with
  | [] => .error .emptyInput
  | i :: rest =>
      if rest.all (fun j => decide (j.unit = i.unit)) then
        let stack := (i :: rest).map CCDImage.data
        let out :=
          match memChunk with
          | none => imageCombineData method clip sigma stack
          | some c => imageCombineChunked method clip sigma c stack
        .ok { data := out, unit := i.unit, exptime := i.exptime,
              acqtype := i.acqtype, mask := none }
      else .error .unitMismatch

/-- Reading the EXPTIME header of a frame, failing like the Python
KeyError when the header entry is absent. -/
def readExptime (d : CCDImage) : Except CalError ℚ :=
  match d.exptime with
  | some t => .ok t
  | none => .error .missingKey

/-- Model of combine_darks (calibration.py): collect the EXPTIME of
every input dark, fail when more than one distinct value is present
(np.unique followed by the length check), otherwise combine with
method average and sigma clipping at 3 and tag the result MASTERDARK. -/
def combine_darks (dark_images : List CCDImage) (memChunk : Option Nat) :
    Except CalError CCDImage :=
  match dark_images.mapM readExptime with
  | .error e => .error e
  | .ok exptimes =>
      if 1 < exptimes.dedup.length then .error .inconsistentExposure
      else
        match image_combine dark_images .average true 3 memChunk with
        | .error e => .error e
        | .ok m => .ok { m with acqtype := some "MASTERDARK" }

/-- Model of ccdproc.subtract_bias: the master is subtracted pixelwise
and the metadata of the science frame is kept. -/
def subtract_bias (ccd master : CCDImage) : CCDImage :=
  { ccd with data := zipWith2D (· - ·) ccd.data master.data }

/-- Model of ccdproc.subtract_dark as invoked by the pipeline, with
keyword arguments exposure_time EXPTIME and exposure_unit seconds.
The shapes must agree; both frames must carry an EXPTIME header entry;
when the scale flag is set the master dark is multiplied by the ratio
of the data exposure to the dark exposure before subtraction, and
otherwise the master dark is subtracted as is.  The pipeline always
calls this with scale set to false (the ccdproc default), since
neither call site passes the scale keyword. -/
def subtract_dark (ccd master : CCDImage) (scale : Bool) : Except CalError CCDImage :=
  if shapeOf ccd.data = shapeOf master.data then
    match ccd.exptime, master.exptime with
    | some dataExposure, some darkExposure =>
        if scale then
          let scaled := master.data.map (fun row => row.map (fun x => x * (dataExposure / darkExposure)))
          .ok { ccd with data := zipWith2D (· - ·) ccd.data scaled }
        else
          .ok { ccd with data := zipWith2D (· - ·) ccd.data master.data }
    | _, _ => .error .missingKey
  else .error .shapeMismatch

/-- Model of ccdproc.flat_correct with its defaults: the flat is first
normalised by its own mean value, then the frame is divided by the
normalised flat; the metadata of the science frame is kept. -/
def flat_correct (ccd flat : CCDImage) : CCDImage :=
  let flatMean := listMean flat.data.flatten
  let flatNormed := flat.data.map (fun row => row.map (fun x => x / flatMean))
  { ccd with data := zipWith2D (· / ·) ccd.data flatNormed }

/-- Model of calibrate_science_image (calibration.py): subtract the
master bias if provided, subtract the master dark if provided (with
exposure_time EXPTIME and the default scale), divide by the master
flat if provided, and finally attach the mask if provided by storing
the boolean cast of its pixel array. -/
def calibrate_science_image (science_image : CCDImage)
    (master_bias master_dark master_flat mask : Option CCDImage) :
    Except CalError CCDImage :=
  let s1 :=
    match master_bias with
    | some b => subtract_bias science_image b
    | none => science_image
  match (match master_dark with
         | some d => subtract_dark s1 d false
         | none => .ok s1) with
  | .error e => .error e
  | .ok s2 =>
      let s3 :=
        match master_flat with
        | some f => flat_correct s2 f
        | none => s2
      match mask with
      | some m =>
          .ok { s3 with mask := some (m.data.map (fun row => row.map (fun x => decide (x ≠ 0)))) }
      | none => .ok s3

/-- The dark-subtraction loop of generate_flat (calibration.py lines
75 to 79): every raw flat frame has the master dark subtracted via
ccdproc.subtract_dark with exposure_time EXPTIME and the default
scale. -/
def generate_flat_calibrated_flats (flat_images : List CCDImage)
    (master_dark : CCDImage) : Except CalError (List CCDImage) :=
  flat_images.mapM (fun flat => subtract_dark flat master_dark false)

/-- Outcome of running a routine that may terminate the process: a
process exit with a code, a raised typed error, or a normal return. -/
inductive ProcOutcome (α : Type) where
  | sysExit (code : Nat)
  | err (e : CalError)
  | ok (val : α)
deriving DecidableEq, Repr

/-- Model of generate_mask (calibration.py): when the expected master
flat file is absent from disk the routine prints a message and calls
sys.exit(1); otherwise it derives the defect mask from the master flat
pixel array via ccdproc.ccdmask (taken here as a parameter, being an
external library heuristic), casts it to an integer array, and tags
the result MASK. -/
def generate_mask (master_flat_exists : Bool) (master_flat : CCDImage)
    (ccdmaskFn : List (List ℚ) → List (List Bool)) : ProcOutcome CCDImage :=
  if master_flat_exists = false then .sysExit 1
  else
    let mk := ccdmaskFn master_flat.data
    .ok { data := mk.map (fun row => row.map (fun b => if b then (1 : ℚ) else 0)),
          unit := "", exptime := none, acqtype := some "MASK", mask := none }

/-- A raw FITS file as seen by the frame-resolution logic of
photocal.py: only its EXPTIME header entry matters to the decision
rules (none models a file whose exposure time cannot be read, which
the code skips with a warning). -/
structure RawFile where
  exptime : Option ℚ
deriving DecidableEq, Repr

/-- The set of distinct exposure times readable from a list of files
(photocal.py builds a python set, skipping unreadable headers). -/
def exptimesOf (files : List RawFile) : List ℚ :=
  (files.filterMap RawFile.exptime).dedup

/-- Nonemptiness of the intersection of two exposure-time sets, the
truthiness test applied by photocal.py to the python set intersection. -/
def intersects (s t : List ℚ) : Bool :=
  s.any (fun x => decide (x ∈ t))

/-- The per-night correction plan decided by the main loop of
photocal.py before any master frame is built: which corrections are
skipped, whether the dark files are shared between the science and
flat consumers, which bias files (if any) serve as the fallback, and
the dark file lists after fallback substitution. -/
structure CorrectionPlan where
  skip_flat_correction : Bool
  skip_science_dark_correction : Bool
  shared_dark_files : Bool
  use_bias_correction : Bool
  bias_files_for_science : List RawFile
  bias_from_science_dir : Option Bool
  science_dark_files : List RawFile
  flat_dark_files : List RawFile
deriving DecidableEq, Repr

/-- Model of the frame-resolution logic of photocal.py main (lines 149
to 291) for one night.  Arguments are the glob results: the dark,
science and bias file lists of the science directory, and the dark,
bias and skyflat file lists of the flat directory (only consulted when
that directory exists).  Returns none when the night is skipped for
want of science files, and the decided CorrectionPlan otherwise. -/
def resolvePlan (flat_dir_exists : Bool)
    (science_dark_files0 science_files science_bias_files
     flat_dark_files0 flat_bias_files0 flat_files0 : List RawFile) :
    Option CorrectionPlan :=
  let flat_dark_files := if flat_dir_exists then flat_dark_files0 else []
  let flat_bias_files := if flat_dir_exists then flat_bias_files0 else []
  if science_files.isEmpty then none
  else
    let science_exposure_times := exptimesOf science_files
    let sdRes : List RawFile × Bool × Bool :=
      if science_dark_files0.isEmpty && !flat_dark_files.isEmpty then
        (if intersects science_exposure_times (exptimesOf flat_dark_files)
         then (flat_dark_files, false, true)
         else (science_dark_files0, true, false))
      else if science_dark_files0.isEmpty then (science_dark_files0, true, false)
      else (science_dark_files0, false, false)
    let science_dark_files1 := sdRes.1
    let skip_science_dark_correction := sdRes.2.1
    let sharedFromScience := sdRes.2.2
    let biasRes : Bool × List RawFile × Option Bool :=
      if skip_science_dark_correction then
        (if !science_bias_files.isEmpty then (true, science_bias_files, some true)
         else if !flat_bias_files.isEmpty then (true, flat_bias_files, some false)
         else (false, [], none))
      else (false, [], none)
    let fdRes : List RawFile × Bool :=
      if flat_dark_files.isEmpty && !science_dark_files1.isEmpty then
        (let flat_sample := (if flat_dir_exists then flat_files0 else []).take 5
         if intersects (exptimesOf flat_sample) (exptimesOf science_dark_files1)
         then (science_dark_files1, true)
         else (flat_dark_files, false))
      else (flat_dark_files, false)
    some {
      skip_flat_correction := !flat_dir_exists
      skip_science_dark_correction := skip_science_dark_correction
      shared_dark_files := sharedFromScience || fdRes.2
      use_bias_correction := biasRes.1
      bias_files_for_science := biasRes.2.1
      bias_from_science_dir := biasRes.2.2
      science_dark_files := science_dark_files1
      flat_dark_files := fdRes.1 }

/-- Whether the calibration step of photocal.py passes a science
master dark to calibrate_science_image under a given plan: the shared
master dark is built when the dark files are shared and present
(photocal.py line 350), and otherwise a science master dark is built
exactly when dark correction is not skipped and science dark files are
present (line 402). -/
def scienceDarkApplied (p : CorrectionPlan) : Bool :=
  if p.shared_dark_files && !p.flat_dark_files.isEmpty then true
  else !p.skip_science_dark_correction && !p.science_dark_files.isEmpty

/-- Whether the calibration step passes a master bias to
calibrate_science_image under a given plan (photocal.py line 332). -/
def scienceBiasApplied (p : CorrectionPlan) : Bool :=
  p.use_bias_correction && !p.bias_files_for_science.isEmpty

/-- Whether the calibration step passes a master flat to
calibrate_science_image under a given plan (photocal.py line 425). -/
def flatApplied (p : CorrectionPlan) : Bool :=
  !p.skip_flat_correction

/-- A constant-valued frame: h rows of w pixels all holding v, with
the given unit and EXPTIME, no ACQTYPE and no mask. -/
def constImg (h w : Nat) (v : ℚ) (u : String) (e : Option ℚ) : CCDImage :=
  ⟨List.replicate h (List.replicate w v), u, e, none, none⟩

lemma zipWith2D_const (f : ℚ → ℚ → ℚ) (h w : Nat) (a b : ℚ) :
    zipWith2D f (List.replicate h (List.replicate w a)) (List.replicate h (List.replicate w b)) =
      List.replicate h (List.replicate w (f a b)) := by
  simp [zipWith2D, List.zipWith_replicate]

lemma shapeOf_const (h w : Nat) (v : ℚ) :
    shapeOf (List.replicate h (List.replicate w v)) = List.replicate h w := by
  simp [shapeOf]

lemma flatten_const (h w : Nat) (v : ℚ) :
    (List.replicate h (List.replicate w v)).flatten = List.replicate (h * w) v := by
  induction h with
  | zero => simp
  | succ n ih =>
      rw [List.replicate_succ, List.flatten_cons, ih, Nat.succ_mul, Nat.add_comm,
        List.replicate_add]

lemma listMean_replicate (n : Nat) (v : ℚ) (hn : n ≠ 0) :
    listMean (List.replicate n v) = v := by
  have hq : (n : ℚ) ≠ 0 := Nat.cast_ne_zero.mpr hn
  simp [listMean, List.sum_replicate, nsmul_eq_mul]
  field_simp

lemma subtract_dark_noscale_ok (ccd dark : CCDImage)
    (hsh : shapeOf ccd.data = shapeOf dark.data)
    (h1 : ccd.exptime.isSome = true) (h2 : dark.exptime.isSome = true) :
    subtract_dark ccd dark false =
      .ok { ccd with data := zipWith2D (· - ·) ccd.data dark.data } := by
  obtain ⟨t1, ht1⟩ := Option.isSome_iff_exists.mp h1
  obtain ⟨t2, ht2⟩ := Option.isSome_iff_exists.mp h2
  simp [subtract_dark, hsh, ht1, ht2]

/-- C10: calibrate_science_image with master_bias, master_dark,
master_flat and mask all absent returns the input frame unchanged:
same pixel data, same unit, no mask attached, and no error raised. -/
theorem calibrate_all_none_identity (sci : CCDImage) :
    calibrate_science_image sci none none none none = .ok sci := rfl

/-- C6 counterexample: with the master flat absent on disk,
generate_mask terminates the process (sys.exit with code 1) instead of
returning the typed MissingArtifactError the claim describes. -/
theorem generate_mask_exit_counterexample :
    generate_mask false ⟨[], "", none, none, none⟩ (fun _ => []) = .sysExit 1 ∧
    (ProcOutcome.sysExit 1 : ProcOutcome CCDImage) ≠ .err .missingArtifact := by
  exact ⟨rfl, by decide⟩

/-- C6 amended: when the expected master flat file does not exist on
disk, generate_mask calls the process-exit routine directly, ending the
run with exit code 1 (the behaviour its own test expects as SystemExit)
rather than surfacing a typed MissingArtifactError to the caller. -/
theorem generate_mask_missing_flat_exits (f : CCDImage)
    (fn : List (List ℚ) → List (List Bool)) :
    generate_mask false f fn = .sysExit 1 := rfl

/-- C1 counterexample: a science frame of constant 1000 with EXPTIME
10 and a master dark of constant 90 with EXPTIME 90.  The claimed
scaled subtraction would remove 90 * (10 / 90) = 10 and leave 990, but
calibrate_science_image leaves 910: the master dark is subtracted
unscaled. -/
theorem dark_scaling_counterexample :
    ((calibrate_science_image ⟨[[1000]], "adu", some 10, none, none⟩ none
        (some ⟨[[90]], "adu", some 90, none, none⟩) none none).toOption.map CCDImage.data
      = some [[910]]) ∧
    ¬ ((910 : ℚ) = 1000 - 90 * (10 / 90)) := by
  constructor
  · norm_num [calibrate_science_image, subtract_dark, shapeOf, zipWith2D]
    exact ⟨_, rfl, rfl⟩
  · norm_num

/-- C1 amended: for every raw flat frame processed by generate_flat
and for every science frame calibrated by calibrate_science_image with
a master dark present, the subtracted value is the master dark
unscaled: both call sites pass exposure_time EXPTIME but leave the
ccdproc scale flag at its default false, so no exposure-time-ratio
scaling is applied. -/
theorem dark_subtraction_unscaled :
    (∀ (flats : List CCDImage) (dark : CCDImage),
      (∀ fl ∈ flats, fl.exptime.isSome = true ∧ shapeOf fl.data = shapeOf dark.data) →
      dark.exptime.isSome = true →
      generate_flat_calibrated_flats flats dark =
        .ok (flats.map (fun fl => { fl with data := zipWith2D (· - ·) fl.data dark.data }))) ∧
    (∀ (sci dark : CCDImage),
      sci.exptime.isSome = true → dark.exptime.isSome = true →
      shapeOf sci.data = shapeOf dark.data →
      calibrate_science_image sci none (some dark) none none =
        .ok { sci with data := zipWith2D (· - ·) sci.data dark.data }) := by
  constructor
  · intro flats dark hfl hd
    induction flats with
    | nil => rfl
    | cons fl rest ih =>
        have h1 := (hfl fl (by simp)).1
        have h2 := (hfl fl (by simp)).2
        have hrest := ih (fun x hx => hfl x (by simp [hx]))
        simp only [generate_flat_calibrated_flats] at hrest ⊢
        rw [List.mapM_cons, subtract_dark_noscale_ok fl dark h2 h1 hd, hrest]
        rfl
  · intro sci dark h1 h2 hsh
    simp only [calibrate_science_image]
    rw [subtract_dark_noscale_ok sci dark hsh h1 h2]

/-- C1 witness: the amended theorem applied to a concrete one-pixel
frame pair with differing exposure times (5 adu, EXPTIME 3; dark 2
adu, EXPTIME 6) yields 5 - 2 = 3. -/
theorem dark_subtraction_unscaled_witness :
    calibrate_science_image ⟨[[5]], "adu", some 3, none, none⟩ none
        (some ⟨[[2]], "adu", some 6, none, none⟩) none none =
      .ok ⟨[[3]], "adu", some 3, none, none⟩ :=
  (dark_subtraction_unscaled.2 ⟨[[5]], "adu", some 3, none, none⟩
    ⟨[[2]], "adu", some 6, none, none⟩ (by decide) (by decide) (by decide)).trans
    (by norm_num [zipWith2D])

/-- C2 counterexample: on constant one-pixel frames with science 1000,
bias 100, dark 150 (equal exposure times) and flat 0.8, the calibrated
value is 750, not the claimed 937.5: ccdproc.flat_correct normalises
the flat by its own mean before dividing, so a constant flat leaves
the values unchanged. -/
theorem flat_division_counterexample :
    ((calibrate_science_image ⟨[[1000]], "adu", some 90, none, none⟩
        (some ⟨[[100]], "adu", some 0, none, none⟩)
        (some ⟨[[150]], "adu", some 90, none, none⟩)
        (some ⟨[[(4 : ℚ) / 5]], "adu", none, none, none⟩) none).toOption.map CCDImage.data
      = some [[750]]) ∧
    ¬ ((750 : ℚ) = 1875 / 2) := by
  constructor
  · norm_num [calibrate_science_image, subtract_bias, subtract_dark, flat_correct,
      shapeOf, zipWith2D, listMean]
    exact ⟨_, rfl, rfl⟩
  · norm_num

/-- C2 amended: on constant-valued synthetic frames (science 1000,
bias 100, dark 150 with the science exposure time) the corrected value
before flat-field division is exactly 750; supplying additionally a
constant master flat of 0.8 still yields 750, because flat_correct
divides by the mean-normalised flat and a constant flat normalises to
one. -/
theorem science_cal_constant_frames (h w : Nat) (t : ℚ) (hh : 1 ≤ h) (hw : 1 ≤ w) :
    calibrate_science_image (constImg h w 1000 "adu" (some t))
        (some (constImg h w 100 "adu" (some 0)))
        (some (constImg h w 150 "adu" (some t))) none none
      = .ok (constImg h w 750 "adu" (some t)) ∧
    calibrate_science_image (constImg h w 1000 "adu" (some t))
        (some (constImg h w 100 "adu" (some 0)))
        (some (constImg h w 150 "adu" (some t)))
        (some (constImg h w (4 / 5) "adu" none)) none
      = .ok (constImg h w 750 "adu" (some t)) := by
  have hbias : subtract_bias (constImg h w 1000 "adu" (some t)) (constImg h w 100 "adu" (some 0)) =
      constImg h w 900 "adu" (some t) := by
    simp only [subtract_bias, constImg, zipWith2D_const]
    norm_num
  have hdark : subtract_dark (constImg h w 900 "adu" (some t)) (constImg h w 150 "adu" (some t)) false =
      .ok (constImg h w 750 "adu" (some t)) := by
    rw [subtract_dark_noscale_ok _ _ (by simp [constImg, shapeOf_const]) (by rfl) (by rfl)]
    simp only [constImg, zipWith2D_const]
    norm_num
  have hflat : flat_correct (constImg h w 750 "adu" (some t)) (constImg h w (4 / 5) "adu" none) =
      constImg h w 750 "adu" (some t) := by
    have hml : listMean (List.replicate h (List.replicate w ((4 : ℚ) / 5))).flatten = 4 / 5 := by
      rw [flatten_const, listMean_replicate _ _ (by positivity)]
    simp only [flat_correct, constImg, hml, List.map_replicate, zipWith2D_const]
    norm_num
  constructor
  · simp only [calibrate_science_image, hbias, hdark]
  · simp only [calibrate_science_image, hbias, hdark, hflat]

/-- C2 witness: the amended theorem applied at a concrete 2-by-2
shape with exposure time 90. -/
theorem science_cal_constant_frames_witness :
    calibrate_science_image (constImg 2 2 1000 "adu" (some 90))
        (some (constImg 2 2 100 "adu" (some 0)))
        (some (constImg 2 2 150 "adu" (some 90)))
        (some (constImg 2 2 (4 / 5) "adu" none)) none
      = .ok (constImg 2 2 750 "adu" (some 90)) :=
  (science_cal_constant_frames 2 2 90 (by decide) (by decide)).2

/-- C8: attaching a defect mask during science calibration changes no
pixel value: the result equals the mask-free calibration with the
boolean cast of the mask array attached after the numeric corrections,
and every pixel whose mask value is zero (outside the masked region)
carries a false flag. -/
theorem mask_attachment_pure :
    (∀ (sci : CCDImage) (b d f : Option CCDImage) (m : CCDImage),
      calibrate_science_image sci b d f (some m) =
        (calibrate_science_image sci b d f none).map
          (fun img => { img with
            mask := some (m.data.map (fun row => row.map (fun x => decide (x ≠ 0)))) })) ∧
    (∀ (m : CCDImage) (i j : Nat),
      (m.data.getD i []).getD j 1 = 0 →
      ((m.data.map (fun row => row.map (fun x => decide (x ≠ 0)))).getD i []).getD j false
        = false) := by
  constructor
  · intro sci b d f m
    cases b with
    | none =>
        cases d with
        | none => rfl
        | some dd =>
            cases hsd : subtract_dark sci dd false with
            | error e => simp [calibrate_science_image, hsd, Except.map]
            | ok s2 => simp [calibrate_science_image, hsd, Except.map]
    | some bb =>
        cases d with
        | none => rfl
        | some dd =>
            cases hsd : subtract_dark (subtract_bias sci bb) dd false with
            | error e => simp [calibrate_science_image, hsd, Except.map]
            | ok s2 => simp [calibrate_science_image, hsd, Except.map]
  · intro m i j hzero
    rcases hi : m.data[i]? with _ | row
    · simp [List.getD_eq_getElem?_getD, hi]
    · rcases hj : row[j]? with _ | x
      · simp [List.getD_eq_getElem?_getD, hi, hj]
      · have hx : x = 0 := by
          simp only [List.getD_eq_getElem?_getD] at hzero
          rw [hi] at hzero
          simp only [Option.getD_some] at hzero
          rw [hj] at hzero
          simpa using hzero
        simp [List.getD_eq_getElem?_getD, hi, hj, hx]

/-- C8 witness: the theorem applied to a concrete calibration with a
2-by-2 mask marking pixel (0, 0), checking the flag at the unmasked
pixel (0, 1). -/
theorem mask_attachment_pure_witness :
    (calibrate_science_image ⟨[[10, 20], [30, 40]], "adu", some 1, none, none⟩ none none none
        (some ⟨[[1, 0], [0, 0]], "", none, none, none⟩) =
      (calibrate_science_image ⟨[[10, 20], [30, 40]], "adu", some 1, none, none⟩ none none none none).map
        (fun img => { img with
          mask := some (([[1, 0], [0, 0]] : List (List ℚ)).map (fun row => row.map (fun x => decide (x ≠ 0)))) })) ∧
    ((([[1, 0], [0, 0]] : List (List ℚ)).map (fun row => row.map (fun x => decide (x ≠ 0)))).getD 0 []).getD 1 false = false :=
  ⟨mask_attachment_pure.1 ⟨[[10, 20], [30, 40]], "adu", some 1, none, none⟩ none none none
      ⟨[[1, 0], [0, 0]], "", none, none, none⟩,
    mask_attachment_pure.2 ⟨[[1, 0], [0, 0]], "", none, none, none⟩ 0 1 (by decide)⟩

lemma filter_replicate_true {α : Type} (p : α → Bool) (n : Nat) (a : α)
    (h : p a = true) : (List.replicate n a).filter p = List.replicate n a := by
  induction n with
  | zero => rfl
  | succ k ih => simp [List.replicate_succ, List.filter_cons, h, ih]

lemma headD_replicate_of_ne {α : Type} (n : Nat) (a d : α) (hn : n ≠ 0) :
    (List.replicate n a).headD d = a := by
  cases n with
  | zero => exact absurd rfl hn
  | succ k => simp [List.replicate_succ]

lemma sigmaKeep_replicate (n : Nat) (v sigma : ℚ) (hn : n ≠ 0) :
    sigmaKeep (List.replicate n v) sigma = List.replicate n v := by
  unfold sigmaKeep
  simp only [listMean_replicate n v hn]
  apply filter_replicate_true
  simp [listMean, List.sum_replicate]

lemma combinePixel_replicate_average (n : Nat) (v sigma : ℚ) (cl : Bool) (hn : n ≠ 0) :
    combinePixel (List.replicate n v) .average cl sigma = v := by
  cases cl with
  | false => simp [combinePixel, listMean_replicate n v hn]
  | true => simp [combinePixel, sigmaKeep_replicate n v sigma hn, listMean_replicate n v hn]

lemma rowGo_const (w : Nat) : ∀ (n : Nat) (v sigma : ℚ) (cl : Bool), n ≠ 0 →
    rowGo .average cl sigma w (List.replicate n (List.replicate w v)) =
      List.replicate w v := by
  induction w with
  | zero => intro n v sigma cl hn; rfl
  | succ k ih =>
      intro n v sigma cl hn
      have h1 : (List.replicate n (List.replicate (k + 1) v)).map (fun r => r.headD 0) =
          List.replicate n v := by
        simp [List.map_replicate, List.replicate_succ]
      have h2 : (List.replicate n (List.replicate (k + 1) v)).map List.tail =
          List.replicate n (List.replicate k v) := by
        simp [List.map_replicate, List.replicate_succ]
      simp only [rowGo, h1, h2, combinePixel_replicate_average n v sigma cl hn,
        ih n v sigma cl hn]
      rw [List.replicate_succ]

lemma combineRow_const (n w : Nat) (v sigma : ℚ) (cl : Bool) (hn : n ≠ 0) :
    combineRow .average cl sigma (List.replicate n (List.replicate w v)) =
      List.replicate w v := by
  unfold combineRow
  rw [headD_replicate_of_ne n _ _ hn, List.length_replicate]
  exact rowGo_const w n v sigma cl hn

lemma combineGo_const (h : Nat) : ∀ (n w : Nat) (v sigma : ℚ) (cl : Bool), n ≠ 0 →
    combineGo .average cl sigma h
        (List.replicate n (List.replicate h (List.replicate w v))) =
      List.replicate h (List.replicate w v) := by
  induction h with
  | zero => intro n w v sigma cl hn; rfl
  | succ k ih =>
      intro n w v sigma cl hn
      have h1 : (List.replicate n (List.replicate (k + 1) (List.replicate w v))).map
          (fun f => f.headD []) = List.replicate n (List.replicate w v) := by
        simp [List.map_replicate, List.replicate_succ]
      have h2 : (List.replicate n (List.replicate (k + 1) (List.replicate w v))).map
          List.tail = List.replicate n (List.replicate k (List.replicate w v)) := by
        simp [List.map_replicate, List.replicate_succ]
      simp only [combineGo, h1, h2, combineRow_const n w v sigma cl hn,
        ih n w v sigma cl hn]
      rw [List.replicate_succ]

lemma combinePixel_single (x sigma : ℚ) (cl : Bool) :
    combinePixel [x] .average cl sigma = x := by
  have := combinePixel_replicate_average 1 x sigma cl (by decide)
  simpa using this

lemma rowGo_single (r : List ℚ) (sigma : ℚ) (cl : Bool) :
    rowGo .average cl sigma r.length [r] = r := by
  induction r with
  | nil => rfl
  | cons x xs ih =>
      simp only [List.length_cons, rowGo, List.map_cons, List.map_nil, List.headD_cons,
        List.tail_cons, combinePixel_single x sigma cl, ih]

lemma combineGo_single (d : List (List ℚ)) (sigma : ℚ) (cl : Bool) :
    combineGo .average cl sigma d.length [d] = d := by
  induction d with
  | nil => rfl
  | cons r rest ih =>
      have hrow : combineRow .average cl sigma [r] = r := by
        unfold combineRow
        simpa using rowGo_single r sigma cl
      simp only [List.length_cons, combineGo, List.map_cons, List.map_nil,
        List.headD_cons, List.tail_cons, hrow, ih]

/-- C9: combining a stack of N at least 1 frames all holding the same
constant value with method average returns that constant at every
pixel, with or without sigma clipping; and combining a single frame
returns that frame's pixel data unchanged. -/
theorem image_combine_average_identity :
    (∀ (n h w : Nat) (v : ℚ) (u : String) (e : Option ℚ) (a : Option String)
        (cl : Bool) (sigma : ℚ), 1 ≤ n →
      image_combine
          (List.replicate n ⟨List.replicate h (List.replicate w v), u, e, a, none⟩)
          .average cl sigma none =
        .ok ⟨List.replicate h (List.replicate w v), u, e, a, none⟩) ∧
    (∀ (img : CCDImage) (cl : Bool) (sigma : ℚ),
      image_combine [img] .average cl sigma none =
        .ok ⟨img.data, img.unit, img.exptime, img.acqtype, none⟩) := by
  constructor
  · intro n h w v u e a cl sigma hn
    obtain ⟨m, rfl⟩ : ∃ m, n = m + 1 := ⟨n - 1, by omega⟩
    rw [List.replicate_succ]
    have hall : (List.replicate m
        (⟨List.replicate h (List.replicate w v), u, e, a, none⟩ : CCDImage)).all
        (fun j => decide (j.unit = u)) = true := by
      simp only [List.all_eq_true, decide_eq_true_eq]
      intro j hj
      rw [List.eq_of_mem_replicate hj]
    have hstack : (((⟨List.replicate h (List.replicate w v), u, e, a, none⟩ : CCDImage) ::
        List.replicate m ⟨List.replicate h (List.replicate w v), u, e, a, none⟩).map
          CCDImage.data) =
        List.replicate (m + 1) (List.replicate h (List.replicate w v)) := by
      rw [List.replicate_succ, List.map_cons, List.map_replicate]
    simp only [image_combine, hall, if_true, imageCombineData, hstack,
      headD_replicate_of_ne (m + 1) _ _ (by omega), List.length_replicate]
    rw [combineGo_const h (m + 1) w v sigma cl (by omega)]
  · intro img cl sigma
    simp only [image_combine, List.all_nil, if_true, List.map_cons, List.map_nil,
      imageCombineData, List.headD_cons]
    rw [combineGo_single img.data sigma cl]

/-- C9 witness: two identical constant 1-by-2 frames of value 7
combine to the constant 7 frame. -/
theorem image_combine_average_identity_witness :
    image_combine (List.replicate 2 ⟨List.replicate 1 (List.replicate 2 7), "adu", some 5, none, none⟩)
        .average true 3 none =
      .ok ⟨List.replicate 1 (List.replicate 2 7), "adu", some 5, none, none⟩ :=
  image_combine_average_identity.1 2 1 2 7 "adu" (some 5) none true 3 (by decide)

lemma image_combine_ne_inconsistent (images : List CCDImage) (me : CombineMethod)
    (cl : Bool) (sigma : ℚ) (mem : Option Nat) :
    image_combine images me cl sigma mem ≠ .error .inconsistentExposure := by
  unfold image_combine
  cases images with
  | nil => simp
  | cons i rest =>
      by_cases hall : rest.all (fun j => decide (j.unit = i.unit)) = true
      · simp [hall]
      · simp [hall]

lemma mapM_readExptime_ok (darks : List CCDImage)
    (h : ∀ d ∈ darks, d.exptime.isSome = true) :
    darks.mapM readExptime = .ok (darks.filterMap CCDImage.exptime) := by
  induction darks with
  | nil => rfl
  | cons d rest ih =>
      obtain ⟨t, ht⟩ := Option.isSome_iff_exists.mp (h d (by simp))
      have hrest := ih (fun x hx => h x (by simp [hx]))
      rw [List.mapM_cons, hrest]
      simp only [readExptime, ht, List.filterMap_cons]
      rfl

/-- C5: combine_darks fails with the inconsistent-exposure error (the
ValueError of calibration.py, named InconsistentExposureError by the
design) exactly when the input stack carries more than one distinct
EXPTIME value; with at most one distinct value and consistent units, a
nonempty stack combines normally. -/
theorem combine_darks_inconsistent_iff :
    ∀ (darks : List CCDImage) (mem : Option Nat),
      (∀ d ∈ darks, d.exptime.isSome = true) →
      ((combine_darks darks mem = .error .inconsistentExposure) ↔
        1 < (darks.filterMap CCDImage.exptime).dedup.length) ∧
      (darks ≠ [] → (∀ d1 ∈ darks, ∀ d2 ∈ darks, d1.unit = d2.unit) →
        ¬ 1 < (darks.filterMap CCDImage.exptime).dedup.length →
        ∃ m, combine_darks darks mem = .ok m) := by
  intro darks mem hex
  have hm := mapM_readExptime_ok darks hex
  constructor
  · unfold combine_darks
    rw [hm]
    dsimp only
    by_cases hlen : 1 < (darks.filterMap CCDImage.exptime).dedup.length
    · simp [hlen]
    · rw [if_neg hlen]
      cases hic : image_combine darks .average true 3 mem with
      | error e =>
          have hne := image_combine_ne_inconsistent darks .average true 3 mem
          rw [hic] at hne
          exact iff_of_false (by simpa using hne) hlen
      | ok m => exact iff_of_false (by simp) hlen
  · intro hne huni hlen
    unfold combine_darks
    rw [hm]
    dsimp only
    rw [if_neg hlen]
    cases darks with
    | nil => exact absurd rfl hne
    | cons d rest =>
        have hall : rest.all (fun j => decide (j.unit = d.unit)) = true := by
          simp only [List.all_eq_true, decide_eq_true_eq]
          intro j hj
          exact huni j (by simp [hj]) d (by simp)
        simp only [image_combine, hall, if_true]
        exact ⟨_, rfl⟩

/-- C5 witness: darks at exposure times 10, 90, 10 fail with the
inconsistent-exposure error; darks at 90, 90, 90 combine normally. -/
theorem combine_darks_inconsistent_iff_witness :
    combine_darks [⟨[[1]], "adu", some 10, none, none⟩, ⟨[[2]], "adu", some 90, none, none⟩,
        ⟨[[3]], "adu", some 10, none, none⟩] none = .error .inconsistentExposure ∧
    ∃ m, combine_darks [⟨[[1]], "adu", some 90, none, none⟩, ⟨[[2]], "adu", some 90, none, none⟩,
        ⟨[[3]], "adu", some 90, none, none⟩] none = .ok m :=
  ⟨(combine_darks_inconsistent_iff _ none (by decide)).1.mpr (by decide),
   (combine_darks_inconsistent_iff _ none (by decide)).2 (by decide) (by decide) (by decide)⟩

lemma combineGo_append (me : CombineMethod) (cl : Bool) (sigma : ℚ) :
    ∀ (k m : Nat) (parts : List (List (List ℚ) × List (List ℚ))),
      (∀ p ∈ parts, p.1.length = k) →
      combineGo me cl sigma (k + m) (parts.map (fun p => p.1 ++ p.2)) =
        combineGo me cl sigma k (parts.map Prod.fst) ++
          combineGo me cl sigma m (parts.map Prod.snd) := by
  intro k
  induction k with
  | zero =>
      intro m parts hk
      have hmap : parts.map (fun p => p.1 ++ p.2) = parts.map Prod.snd := by
        apply List.map_congr_left
        intro p hp
        rw [List.length_eq_zero.mp (hk p hp)]
        rfl
      rw [Nat.zero_add, hmap]
      simp [combineGo]
  | succ k ih =>
      intro m parts hk
      have hsucc : (k + 1) + m = (k + m) + 1 := by omega
      rw [hsucc]
      have hheads : (parts.map (fun p => p.1 ++ p.2)).map (fun f => f.headD []) =
          (parts.map Prod.fst).map (fun f => f.headD []) := by
        simp only [List.map_map]
        apply List.map_congr_left
        intro p hp
        have h1 := hk p hp
        cases hp1 : p.1 with
        | nil => rw [hp1] at h1; simp at h1
        | cons a tl => simp [hp1]
      have htails : (parts.map (fun p => p.1 ++ p.2)).map List.tail =
          (parts.map (fun p => (p.1.tail, p.2))).map (fun p => p.1 ++ p.2) := by
        simp only [List.map_map]
        apply List.map_congr_left
        intro p hp
        have h1 := hk p hp
        cases hp1 : p.1 with
        | nil => rw [hp1] at h1; simp at h1
        | cons a tl => simp [hp1]
      have hlen2 : ∀ q ∈ parts.map (fun p => (p.1.tail, p.2)), q.1.length = k := by
        intro q hq
        obtain ⟨p, hp, rfl⟩ := List.mem_map.mp hq
        have h1 := hk p hp
        simp [List.length_tail, h1]
      have hfst2 : (parts.map (fun p => (p.1.tail, p.2))).map Prod.fst =
          (parts.map Prod.fst).map List.tail := by
        simp [List.map_map]
      have hsnd2 : (parts.map (fun p => (p.1.tail, p.2))).map Prod.snd =
          parts.map Prod.snd := by
        simp [List.map_map]
      simp only [combineGo, hheads, htails]
      rw [ih m _ hlen2, hfst2, hsnd2]
      simp

lemma chunkedGo_eq_combineGo (me : CombineMethod) (cl : Bool) (sigma : ℚ) (c : Nat) :
    ∀ (fuel : Nat) (stack : List (List (List ℚ))),
      (∀ f ∈ stack, f.length = fuel) →
      chunkedGo me cl sigma c fuel stack = combineGo me cl sigma fuel stack := by
  intro fuel
  induction fuel using Nat.strong_induction_on with
  | _ fuel ih =>
      match fuel with
      | 0 =>
          intro stack hst
          rw [chunkedGo]
          rfl
      | fuel + 1 =>
          intro stack hst
          rw [chunkedGo]
          have hdrop : ∀ f ∈ stack.map (List.drop (c + 1)), f.length = fuel - c := by
            intro f hf
            obtain ⟨g, hg, rfl⟩ := List.mem_map.mp hf
            rw [List.length_drop, hst g hg]
            omega
          rw [ih (fuel - c) (by omega) (stack.map (List.drop (c + 1))) hdrop]
          have hparts : ∀ p ∈ stack.map (fun f => (f.take (c + 1), f.drop (c + 1))),
              p.1.length = min (c + 1) (fuel + 1) := by
            intro p hp
            obtain ⟨g, hg, rfl⟩ := List.mem_map.mp hp
            rw [List.length_take, hst g hg]
          have happ := combineGo_append me cl sigma (min (c + 1) (fuel + 1)) (fuel - c)
            (stack.map (fun f => (f.take (c + 1), f.drop (c + 1)))) hparts
          have hid : (stack.map (fun f => (f.take (c + 1), f.drop (c + 1)))).map
              (fun p => p.1 ++ p.2) = stack := by
            simp only [List.map_map]
            have : ∀ f ∈ stack, (f.take (c + 1) ++ f.drop (c + 1)) = f := by
              intro f _
              exact List.take_append_drop (c + 1) f
            calc stack.map ((fun p : List (List ℚ) × List (List ℚ) => p.1 ++ p.2) ∘
                  (fun f => (f.take (c + 1), f.drop (c + 1))))
                = stack.map id := List.map_congr_left (fun f hf => this f hf)
              _ = stack := List.map_id stack
          have hfst : (stack.map (fun f => (f.take (c + 1), f.drop (c + 1)))).map Prod.fst =
              stack.map (List.take (c + 1)) := by
            simp [List.map_map]
          have hsnd : (stack.map (fun f => (f.take (c + 1), f.drop (c + 1)))).map Prod.snd =
              stack.map (List.drop (c + 1)) := by
            simp [List.map_map]
          have hkm : min (c + 1) (fuel + 1) + (fuel - c) = fuel + 1 := by omega
          rw [hid, hfst, hsnd, hkm] at happ
          rw [happ]

/-- C7: for every nonempty list of same-height frames, chunked
out-of-core combination under any memory-derived chunking equals the
unchunked combination, for both methods and with or without sigma
clipping: the two image_combine results are pixel-identical. -/
theorem image_combine_chunking_invariant :
    ∀ (images : List CCDImage) (h : Nat),
      images ≠ [] → (∀ img ∈ images, img.data.length = h) →
      ∀ (c : Nat) (me : CombineMethod) (cl : Bool) (sigma : ℚ),
        image_combine images me cl sigma (some c) = image_combine images me cl sigma none := by
  intro images h hne hlen c me cl sigma
  cases images with
  | nil => exact absurd rfl hne
  | cons i rest =>
      unfold image_combine
      by_cases hall : rest.all (fun j => decide (j.unit = i.unit)) = true
      · simp only [hall, if_true]
        have hdata : imageCombineChunked me cl sigma c ((i :: rest).map CCDImage.data) =
            imageCombineData me cl sigma ((i :: rest).map CCDImage.data) := by
          unfold imageCombineChunked imageCombineData
          apply chunkedGo_eq_combineGo
          intro f hf
          obtain ⟨g, hg, rfl⟩ := List.mem_map.mp hf
          rw [List.map_cons, List.headD_cons, hlen g hg, hlen i (by simp)]
        rw [hdata]
      · simp [hall]

/-- C7 witness: a concrete two-frame 3-row stack combined with chunk
bands of two rows equals the unchunked combination. -/
theorem image_combine_chunking_invariant_witness :
    image_combine [⟨[[1, 2], [3, 4], [5, 6]], "adu", some 1, none, none⟩,
        ⟨[[7, 8], [9, 10], [11, 12]], "adu", some 1, none, none⟩] .median false 3 (some 1) =
      image_combine [⟨[[1, 2], [3, 4], [5, 6]], "adu", some 1, none, none⟩,
        ⟨[[7, 8], [9, 10], [11, 12]], "adu", some 1, none, none⟩] .median false 3 none :=
  image_combine_chunking_invariant
    [⟨[[1, 2], [3, 4], [5, 6]], "adu", some 1, none, none⟩,
     ⟨[[7, 8], [9, 10], [11, 12]], "adu", some 1, none, none⟩] 3
    (by simp) (by decide) 1 .median false 3

/-- C3: for a night whose science directory has no dark files but
whose flat directory has some, the flat-directory darks are
substituted for science dark correction exactly when the science
exposure-time set meets the flat-dark exposure-time set; on an empty
intersection, science dark correction is skipped for the night. -/
theorem dark_substitution_iff :
    ∀ (sf sbf fdf fbf ff : List RawFile),
      sf ≠ [] → fdf ≠ [] →
      (resolvePlan true [] sf sbf fdf fbf ff).isSome = true ∧
      ∀ p, resolvePlan true [] sf sbf fdf fbf ff = some p →
        ((p.science_dark_files = fdf ∧ p.skip_science_dark_correction = false) ↔
          intersects (exptimesOf sf) (exptimesOf fdf) = true) ∧
        (intersects (exptimesOf sf) (exptimesOf fdf) = false →
          p.skip_science_dark_correction = true ∧ scienceDarkApplied p = false) := by
  intro sf sbf fdf fbf ff hsf hfdf
  constructor
  · simp [resolvePlan, hsf]
  · intro p hp
    by_cases hint : intersects (exptimesOf sf) (exptimesOf fdf) = true
    · simp [resolvePlan, hsf, hfdf, hint] at hp
      subst hp
      constructor
      · simpa using hint
      · intro hfalse
        rw [hfalse] at hint
        simp at hint
    · simp [resolvePlan, hsf, hfdf, hint] at hp
      subst hp
      constructor
      · simp [hint]
      · intro _
        exact ⟨rfl, by simp [scienceDarkApplied]⟩

/-- C3 witness: the theorem applied to a night with one science file
at exposure 10 and one flat-directory dark at exposure 10: the darks
are substituted and dark correction is not skipped. -/
theorem dark_substitution_iff_witness :
    ((⟨false, false, true, false, [], none, [⟨some 10⟩], [⟨some 10⟩]⟩ : CorrectionPlan).science_dark_files
        = [⟨some 10⟩] ∧
     (⟨false, false, true, false, [], none, [⟨some 10⟩], [⟨some 10⟩]⟩ : CorrectionPlan).skip_science_dark_correction
        = false) :=
  ((dark_substitution_iff [⟨some 10⟩] [] [⟨some 10⟩] [] [] (by decide) (by decide)).2
    ⟨false, false, true, false, [], none, [⟨some 10⟩], [⟨some 10⟩]⟩ (by decide)).1.mpr (by decide)

/-- C4 counterexample: a night with no flat directory, no dark files
and no bias files anywhere.  Science dark correction is skipped and no
bias is available, yet the plan does not apply flat correction either
(there is no flat directory), contradicting that the plan applies flat
correction only. -/
theorem flat_only_fallback_counterexample :
    resolvePlan false [] [⟨some 10⟩] [] [] [] [] =
      some ⟨true, true, false, false, [], none, [], []⟩ ∧
    (⟨true, true, false, false, [], none, [], []⟩ : CorrectionPlan).skip_science_dark_correction = true ∧
    scienceBiasApplied ⟨true, true, false, false, [], none, [], []⟩ = false ∧
    flatApplied ⟨true, true, false, false, [], none, [], []⟩ = false := by
  decide

/-- C4 amended: whenever science dark correction is skipped, the bias
fallback has strict priority: science-directory bias files are used if
present, else the flat-directory bias files (an empty set when the
flat directory is absent); if neither exists, the plan applies neither
bias nor dark correction, and flat correction exactly when the flat
directory exists.  Bias correction is never applied when dark
correction is applied. -/
theorem bias_fallback_priority :
    ∀ (fde : Bool) (sdf sf sbf fdf fbf ff : List RawFile) (p : CorrectionPlan),
      resolvePlan fde sdf sf sbf fdf fbf ff = some p →
      ((p.skip_science_dark_correction = true →
        (sbf ≠ [] → p.use_bias_correction = true ∧ p.bias_files_for_science = sbf ∧
          p.bias_from_science_dir = some true) ∧
        (sbf = [] → (if fde then fbf else []) ≠ [] →
          p.use_bias_correction = true ∧
          p.bias_files_for_science = (if fde then fbf else []) ∧
          p.bias_from_science_dir = some false) ∧
        (sbf = [] → (if fde then fbf else []) = [] →
          scienceBiasApplied p = false ∧ scienceDarkApplied p = false ∧
          flatApplied p = fde)) ∧
      (scienceBiasApplied p = true → scienceDarkApplied p = false)) := by
  intro fde sdf sf sbf fdf fbf ff p hp
  by_cases hsf : sf = []
  · simp [resolvePlan, hsf] at hp
  cases fde with
  | false =>
      by_cases hsd : sdf = []
      · by_cases hb1 : sbf = []
        · -- no flat directory, no darks, no bias anywhere
          simp [resolvePlan, hsf, hsd, hb1] at hp
          subst hp
          refine ⟨fun _ => ⟨fun hne => absurd hb1 hne, fun _ hne => absurd rfl hne,
            fun _ _ => ⟨by simp [scienceBiasApplied], by simp [scienceDarkApplied],
              by simp [flatApplied]⟩⟩, fun h => by simp [scienceBiasApplied] at h⟩
        · -- no flat directory, no darks, science bias present
          simp [resolvePlan, hsf, hsd, hb1] at hp
          subst hp
          exact ⟨fun _ => ⟨fun _ => ⟨rfl, rfl, rfl⟩, fun hnil _ => absurd hnil hb1,
            fun hnil _ => absurd hnil hb1⟩, fun _ => by simp [scienceDarkApplied]⟩
      · -- no flat directory, science darks present: dark correction proceeds
        simp [resolvePlan, hsf, hsd] at hp
        subst hp
        exact ⟨fun habs => by simp at habs, fun h => by simp [scienceBiasApplied] at h⟩
  | true =>
      by_cases hsd : sdf = []
      · by_cases hfd : fdf = []
        · -- no darks in either directory: dark skipped, bias fallback
          by_cases hb1 : sbf = []
          · by_cases hb2 : fbf = []
            · simp [resolvePlan, hsf, hsd, hfd, hb1, hb2] at hp
              subst hp
              refine ⟨fun _ => ⟨fun hne => absurd hb1 hne, fun _ hne => absurd hb2 hne,
                fun _ _ => ⟨by simp [scienceBiasApplied], by simp [scienceDarkApplied],
                  by simp [flatApplied]⟩⟩, fun h => by simp [scienceBiasApplied] at h⟩
            · simp [resolvePlan, hsf, hsd, hfd, hb1, hb2] at hp
              subst hp
              exact ⟨fun _ => ⟨fun hne => absurd hb1 hne, fun _ _ => ⟨rfl, rfl, rfl⟩,
                fun _ hnil => absurd hnil hb2⟩, fun _ => by simp [scienceDarkApplied]⟩
          · simp [resolvePlan, hsf, hsd, hfd, hb1] at hp
            subst hp
            exact ⟨fun _ => ⟨fun _ => ⟨rfl, rfl, rfl⟩, fun hnil _ => absurd hnil hb1,
              fun hnil _ => absurd hnil hb1⟩, fun _ => by simp [scienceDarkApplied]⟩
        · -- flat-directory darks present: substitution attempt
          by_cases hB : intersects (exptimesOf sf) (exptimesOf fdf) = true
          · -- substitution succeeds: dark correction proceeds, no bias fallback
            simp [resolvePlan, hsf, hsd, hfd, hB] at hp
            subst hp
            exact ⟨fun habs => by simp at habs, fun h => by simp [scienceBiasApplied] at h⟩
          · -- exposure mismatch: dark skipped, bias fallback
            by_cases hb1 : sbf = []
            · by_cases hb2 : fbf = []
              · simp [resolvePlan, hsf, hsd, hfd, hB, hb1, hb2] at hp
                subst hp
                refine ⟨fun _ => ⟨fun hne => absurd hb1 hne, fun _ hne => absurd hb2 hne,
                  fun _ _ => ⟨by simp [scienceBiasApplied], by simp [scienceDarkApplied],
                    by simp [flatApplied]⟩⟩, fun h => by simp [scienceBiasApplied] at h⟩
              · simp [resolvePlan, hsf, hsd, hfd, hB, hb1, hb2] at hp
                subst hp
                exact ⟨fun _ => ⟨fun hne => absurd hb1 hne, fun _ _ => ⟨rfl, rfl, rfl⟩,
                  fun _ hnil => absurd hnil hb2⟩, fun _ => by simp [scienceDarkApplied]⟩
            · simp [resolvePlan, hsf, hsd, hfd, hB, hb1] at hp
              subst hp
              exact ⟨fun _ => ⟨fun _ => ⟨rfl, rfl, rfl⟩, fun hnil _ => absurd hnil hb1,
                fun hnil _ => absurd hnil hb1⟩, fun _ => by simp [scienceDarkApplied]⟩
      · -- science darks present: dark correction proceeds, no bias fallback
        simp [resolvePlan, hsf, hsd] at hp
        subst hp
        exact ⟨fun habs => by simp at habs, fun h => by simp [scienceBiasApplied] at h⟩

/-- C4 witness: the amended theorem applied to a night with one
science file, no darks anywhere, and one science-directory bias file:
the bias fallback selects the science-directory bias files. -/
theorem bias_fallback_priority_witness :
    (⟨false, true, false, true, [⟨some 0⟩], some true, [], []⟩ : CorrectionPlan).use_bias_correction = true ∧
    (⟨false, true, false, true, [⟨some 0⟩], some true, [], []⟩ : CorrectionPlan).bias_files_for_science = [⟨some 0⟩] ∧
    (⟨false, true, false, true, [⟨some 0⟩], some true, [], []⟩ : CorrectionPlan).bias_from_science_dir = some true :=
  ((bias_fallback_priority true [] [⟨some 10⟩] [⟨some 0⟩] [] [] []
      ⟨false, true, false, true, [⟨some 0⟩], some true, [], []⟩ (by decide)).1 (by decide)).1
    (by decide)

end ASTEP
